import Mathlib

/-!
Verification development for the JobPortal backend service layer.

The definitions below are a shallow embedding of `app/services.py` and
`app/sanitize.py`.  The SQLAlchemy/PostgreSQL storage collaborator is
modelled as in-memory lists of rows; queries become list pipelines with
the same join shape, filter order and truthiness checks as the Python
source.  SQL three-valued logic matters in a few places: a comparison or
(I)LIKE applied to a NULL column is not TRUE, so such rows are excluded
by a WHERE clause; the embedding encodes NULL columns as `Option` fields
and makes those predicates return `false` on `none`.

Two pieces of the running system are external engines, not code of this
repository, and are passed in as oracle parameters:
  * `re_compile_error` models Python's `re.compile`: `none` means the
    pattern compiles, `some e` means it raises `re.error` with message `e`;
  * `rm` models PostgreSQL's case-insensitive regex operator `~*`.
Everything else is translated directly from the source.
-/

namespace JobPortal

/-- Decidable equality for `Except`, so concrete runs of the fallible
    query functions can be checked by `decide`. -/
instance {ε α : Type} [DecidableEq ε] [DecidableEq α] : DecidableEq (Except ε α) := fun a b =>
  match a, b with
  | .ok x, .ok y =>
    if h : x = y then .isTrue (by rw [h]) else .isFalse (by intro hc; cases hc; exact h rfl)
  | .error e, .error e' =>
    if h : e = e' then .isTrue (by rw [h]) else .isFalse (by intro hc; cases hc; exact h rfl)
  | .ok _, .error _ => .isFalse (by intro hc; cases hc)
  | .error _, .ok _ => .isFalse (by intro hc; cases hc)

/-! ## Data model (app/models.py)

Rows of the three relations.  Descriptive text columns of `jobs` that no
verified claim reads (description, contacts, coordinates, ...) are
omitted; all kept text columns are nullable (`Option String`) exactly as
in `models.py`.  Dates are modelled as `Nat` (ordinal days), which
preserves the ordering and equality structure the code uses. -/

structure Company where
  id : Nat
  name : String
  hidden : Bool
deriving DecidableEq

structure Job where
  id : Nat
  company_id : Nat
  job_id : Option String := none
  url : Option String := none
  title : Option String := none
  function : Option String := none
  level : Option String := none
  contract_type : Option String := none
  work_location : Option String := none
  work_location_short : Option String := none
  all_locations : Option String := none
  department : Option String := none
  keywords : Option String := none
deriving DecidableEq

/-- A row of the `inserts` relation (a snapshot entry). -/
structure InsertRow where
  id : Nat
  job_id : Nat
  scrape_date : Nat
deriving DecidableEq

structure APIKey where
  admin : Bool := false
  read : Bool := false
  write : Bool := false
  read_hidden : Bool := false
  is_active : Bool := true
deriving DecidableEq

/-- The store: three relations plus the autoincrement counters the
    primary-key columns would provide. -/
structure DB where
  companies : List Company := []
  jobs : List Job := []
  inserts : List InsertRow := []
  nextCompanyId : Nat := 1
  nextJobId : Nat := 1
  nextInsertId : Nat := 1
deriving DecidableEq

/-! ## Python truthiness helpers

`if s:` on an `Optional[str]` is false for `None` and for the empty
string; `if xs:` on an optional list is false for `None` and `[]`;
`if n:` on an optional int is false for `None` and `0`. -/

def truthy : Option String → Bool
  | none => false
  | some s => !(s == "")

def truthyL : Option (List String) → Bool
  | none => false
  | some xs => !xs.isEmpty

def truthyN : Option Nat → Bool
  | none => false
  | some n => !(n == 0)

/-! ## Visibility filter (`JobService._apply_hidden_filter`) -/

/-- The caller may read hidden companies iff it presents a key with
    `read_hidden` or `admin`; no key means no. -/
def mayReadHidden : Option APIKey → Bool
  | none => false
  | some key => key.read_hidden || key.admin

/-- Whether a company row survives `_apply_hidden_filter`: the predicate
    `Company.hidden == False` is added unless the key may read hidden. -/
def hiddenPass (k : Option APIKey) (c : Company) : Bool :=
  if mayReadHidden k then true else !c.hidden

/-! ## Sanitizer (app/sanitize.py) -/

/-- One character of `sanitize_like_pattern`: the source's three
    sequential `str.replace` calls (backslash first, then `%`, then `_`)
    amount to prefixing each of these three characters with `\`. -/
def escapeLikeChar (c : Char) : List Char :=
  if c = '\\' ∨ c = '%' ∨ c = '_' then ['\\', c] else [c]

def sanitize_like_pattern : Option String → Option String
  | none => none
  | some s => some ⟨s.toList.flatMap escapeLikeChar⟩

/-- `str.strip()` (ASCII/unicode whitespace trimming at both ends). -/
def pyStrip (s : String) : String :=
  ⟨((s.toList.dropWhile Char.isWhitespace).reverse.dropWhile Char.isWhitespace).reverse⟩

/-- `sanitize_string`: drop NUL bytes, strip, truncate to `max_length`. -/
def sanitize_string (value : Option String) (max_length : Nat := 1000) : Option String :=
  match value with
  | none => none
  | some s =>
    let s1 : String := ⟨s.toList.filter (fun c => !(c == '\x00'))⟩
    let s2 := pyStrip s1
    if s2.length > max_length then some ⟨s2.toList.take max_length⟩ else some s2

/-! ### The regex deny list

`sanitize_regex` runs `re.search` for seven fixed patterns.  Each of
those patterns is a sequence of literal characters and `.*` gaps (`.`
matches anything except a newline).  `RTok` is that token language and
`searchToks` is `re.search` for it: does any suffix of the subject admit
a match? -/

inductive RTok where
  | lit (cs : List Char)
  | anyRun
deriving DecidableEq

/-- Match a literal run, then continue with `k`. -/
def matchLitThen (l : List Char) (k : List Char → Bool) : List Char → Bool :=
  match l with
  | [] => k
  | a :: l' => fun s =>
    match s with
    | [] => false
    | c :: s' => a == c && matchLitThen l' k s'

/-- Match `.*` (zero or more non-newline characters), then continue. -/
def anyRunThen (k : List Char → Bool) : List Char → Bool
  | [] => k []
  | c :: s => k (c :: s) || (!(c == '\n') && anyRunThen k s)

def matchToks : List RTok → List Char → Bool
  | [], _ => true
  | .lit l :: ts, s => matchLitThen l (matchToks ts) s
  | .anyRun :: ts, s => anyRunThen (matchToks ts) s

def searchToks (ts : List RTok) : List Char → Bool
  | [] => matchToks ts []
  | c :: s => matchToks ts (c :: s) || searchToks ts s

/-- The seven `dangerous_patterns` of `sanitize_regex`, tokenised:
    `\(\.\*\)\+`, `\(\.\+\)\+`, `\(\[.*\]\*\)\+`, `\(\[.*\]\+\)\+`,
    `\(\.\*\)\*`, `\(\.\+\)\*`, `\(.*\+.*\)\{.*,.*\}`. -/
def dangerous_patterns : List (List RTok) :=
  [ [.lit ['(', '.', '*', ')', '+']],
    [.lit ['(', '.', '+', ')', '+']],
    [.lit ['(', '['], .anyRun, .lit [']', '*', ')', '+']],
    [.lit ['(', '['], .anyRun, .lit [']', '+', ')', '+']],
    [.lit ['(', '.', '*', ')', '*']],
    [.lit ['(', '.', '+', ')', '*']],
    [.lit ['('], .anyRun, .lit ['+'], .anyRun, .lit [')', '{'], .anyRun,
      .lit [','], .anyRun, .lit ['}']] ]

def hasDangerous (v : String) : Bool :=
  dangerous_patterns.any fun ts => searchToks ts v.toList

/-- Number of occurrences of the two-character sequence `a b` (used for
    `value.count('\\(')`; occurrences of this pair can never overlap, so
    Python's non-overlapping count equals the plain position count). -/
def countSeq2 (a b : Char) : List Char → Nat
  | x :: y :: rest => (if x == a && y == b then 1 else 0) + countSeq2 a b (y :: rest)
  | _ => 0

/-- `value.count('(') - value.count('\\(')`.  Every occurrence of `\(`
    contains a `(`, so the Python `int` subtraction never goes negative
    and `Nat` subtraction is faithful. -/
def openParens (v : String) : Nat :=
  v.toList.count '(' - countSeq2 '\\' '(' v.toList

/-- `sanitize_regex`.  `re_compile_error` is the `re.compile` oracle:
    `none` = the pattern compiles, `some e` = `re.error` with message `e`.
    Check order as in the source: length, deny list, group count, compile. -/
def sanitize_regex (re_compile_error : String → Option String)
    (value : Option String) (max_length : Nat := 500) : Except String (Option String) :=
  match value with
  | none => .ok none
  | some v =>
    if v.length > max_length then
      .error ("Regex pattern exceeds maximum length of " ++ toString max_length ++ " characters")
    else if hasDangerous v then
      .error "Regex pattern contains potentially dangerous constructs"
    else if openParens v > 10 then
      .error "Regex pattern contains too many nested groups"
    else
      match re_compile_error v with
      | some e => .error ("Invalid regex pattern: " ++ e)
      | none => .ok (some v)

/-! ## SQL (I)LIKE matching

`likeMatchCore pat s` is SQL LIKE with escape character `\`:
`%` matches any sequence, `_` any single character, `\c` the literal `c`.
`ilike` lower-cases both sides, as PostgreSQL ILIKE does. -/

/-- Try the continuation on every suffix (the `%` wildcard). -/
def likeSuffix (m : List Char → Bool) : List Char → Bool
  | [] => m []
  | c :: s => m (c :: s) || likeSuffix m s

def likeMatchCore : List Char → List Char → Bool
  | [], s => s.isEmpty
  | '%' :: ps, s => likeSuffix (likeMatchCore ps) s
  | '_' :: ps, s =>
    (match s with
     | [] => false
     | _ :: s' => likeMatchCore ps s')
  | '\\' :: ps, s =>
    (match ps, s with
     | p :: ps', c :: s' => p == c && likeMatchCore ps' s'
     | _, _ => false)
  | p :: ps, s =>
    (match s with
     | [] => false
     | c :: s' => p == c && likeMatchCore ps s')

def ilike (s pattern : String) : Bool :=
  likeMatchCore (pattern.toList.map Char.toLower) (s.toList.map Char.toLower)

/-- `column ILIKE pattern` on a nullable column: NULL yields SQL NULL,
    which a WHERE clause treats as not-TRUE. -/
def optIlike (o : Option String) (pattern : String) : Bool :=
  match o with
  | none => false
  | some s => ilike s pattern

/-- `NOT (column ILIKE pattern)` on a nullable column: for NULL the
    negation is still SQL NULL, so the row is excluded, not included. -/
def optNotIlike (o : Option String) (pattern : String) : Bool :=
  match o with
  | none => false
  | some s => !(ilike s pattern)

/-- `column ~* pattern` on a nullable column, `rm` being the PostgreSQL
    case-insensitive regex oracle (`rm pattern subject`). -/
def optRegexMatch (rm : String → String → Bool) (o : Option String) (pattern : String) : Bool :=
  match o with
  | none => false
  | some s => rm pattern s

/-- The `f"%{sanitized}%"` pattern built by the filter code.  Its argument
    comes from `sanitize_like_pattern (sanitize_string (some v))`, which is
    never `none`; `getD` only totalises the function. -/
def likePattern (needle : Option String) : String :=
  "%" ++ needle.getD "" ++ "%"

/-! ## Snapshot store access and lifecycle resolver (services.py) -/

/-- `jobs JOIN companies ON jobs.company_id = companies.id` — the base
    join shape shared by the listing queries. -/
def joinRows (db : DB) : List (Job × Company) :=
  db.jobs.flatMap fun j =>
    (db.companies.filter fun c => j.company_id == c.id).map fun c => (j, c)

/-- The `first_seen` subquery: MIN(scrape_date) of the job's snapshot
    entries, NULL (none) when the job has no entries (outer join). -/
def firstSeen (db : DB) (j : Job) : Option Nat :=
  ((db.inserts.filter fun i => i.job_id == j.id).map (fun i => i.scrape_date)).min?

/-- The `last_seen` subquery: MAX(scrape_date), NULL when no entries. -/
def lastSeen (db : DB) (j : Job) : Option Nat :=
  ((db.inserts.filter fun i => i.job_id == j.id).map (fun i => i.scrape_date)).max?

/-- Row type returned by the listing queries:
    (Job, Company, first_seen, last_seen). -/
abbrev ResultRow := Job × Company × Option Nat × Option Nat

/-- Shortcut instance: keeps instance search for row-list equalities (as
    used by `decide` on concrete runs) within its default size limit. -/
instance : DecidableEq ResultRow := inferInstance

/-- `JobService._get_job_ids_on_date`: ids of this company's jobs having a
    snapshot entry dated exactly `d`, restricted by visibility. -/
def jobIdsOnDate (db : DB) (k : Option APIKey) (name : String) (d : Nat) : Finset Nat :=
  ((db.jobs.filter fun j =>
      (db.companies.any fun c => j.company_id == c.id && c.name == name && hiddenPass k c) &&
      (db.inserts.any fun i => j.id == i.job_id && i.scrape_date == d)).map (fun j => j.id)).toFinset

/-- Whether a snapshot entry belongs (through its job and a visible
    company of the given name) to the candidate rows of
    `JobService._get_adjacent_date`. -/
def insertVisible (db : DB) (k : Option APIKey) (name : String) (i : InsertRow) : Bool :=
  db.jobs.any fun j => i.job_id == j.id &&
    (db.companies.any fun c => j.company_id == c.id && c.name == name && hiddenPass k c)

/-- The dates of all candidate snapshot entries for a company name
    (with multiplicity, like the SQL result set before ordering). -/
def observedDates (db : DB) (k : Option APIKey) (name : String) : List Nat :=
  (db.inserts.filter (insertVisible db k name)).map (fun i => i.scrape_date)

/-- `JobService._get_adjacent_date`: `ORDER BY scrape_date DESC/ASC` plus
    `.first()` is the maximum observed date strictly below (direction
    `previous`), resp. the minimum strictly above (any other direction). -/
def getAdjacentDate (db : DB) (k : Option APIKey) (name : String)
    (current_date : Nat) (direction : String) : Option Nat :=
  if direction = "previous" then
    ((observedDates db k name).filter fun d => d < current_date).max?
  else
    ((observedDates db k name).filter fun d => current_date < d).min?

/-- `JobService.get_job_by_id`: join, filter by id, visibility, `.first()`. -/
def get_job_by_id (db : DB) (job_id : Nat) (k : Option APIKey) : Option (Job × Company) :=
  ((joinRows db).filter fun jc => jc.1.id == job_id && hiddenPass k jc.2).head?

/-- `JobService.search_jobs`: full-text search over title/function/keywords
    with the `%sanitized%` pattern (plain `%` when the sanitised query is
    empty or absent), then the visibility filter. -/
def search_jobs (db : DB) (k : Option APIKey) (search_query : Option String) : List ResultRow :=
  let sanitized_query := sanitize_like_pattern (sanitize_string search_query)
  let search_pattern := match sanitized_query with
    | some s => if s == "" then "%" else "%" ++ s ++ "%"
    | none => "%"
  ((joinRows db).filter fun jc =>
      (optIlike jc.1.title search_pattern ||
       optIlike jc.1.function search_pattern ||
       optIlike jc.1.keywords search_pattern) && hiddenPass k jc.2).map
    fun jc => (jc.1, jc.2, firstSeen db jc.1, lastSeen db jc.1)

/-! ## Status classifier and query composer (`get_jobs_with_filters`) -/

/-- The keyword arguments of `JobService.get_jobs_with_filters`, with the
    source's defaults. -/
structure FilterParams where
  company_name : Option String := none
  company_names : Option (List String) := none
  company_id : Option Nat := none
  found_on_date : Option Nat := none
  job_status : Option String := none
  title_contains : Option String := none
  title_excludes : Option String := none
  title_regex : Option String := none
  level : Option String := none
  levels : Option (List String) := none
  contract_type : Option String := none
  location : Option String := none
  function : Option String := none
  function_regex : Option String := none
  department : Option String := none
  keywords : Option String := none
  skip : Nat := 0
  limit : Option Nat := none
  count_only : Bool := false

/-- The status-classification block of `get_jobs_with_filters` (lines
    462–498): computes `(job_id_filter, query_date)`.  It runs only when
    `found_on_date and job_status and company_name` are all truthy;
    `query_date` starts as `found_on_date` and is redirected to the
    previous adjacent date exactly in the `removed`-with-previous case. -/
def jobStatusFilter (db : DB) (k : Option APIKey) (company_name : Option String)
    (found_on_date : Option Nat) (job_status : Option String) :
    Option (Finset Nat) × Option Nat :=
  match found_on_date, job_status, company_name with
  | some fd, some st, some nm =>
    if st = "" ∨ nm = "" then (none, some fd)
    else
      let current_job_ids := jobIdsOnDate db k nm fd
      if st = "new" then
        match getAdjacentDate db k nm fd "previous" with
        | some prev_date => (some (current_job_ids \ jobIdsOnDate db k nm prev_date), some fd)
        | none => (some current_job_ids, some fd)
      else if st = "existing" then
        match getAdjacentDate db k nm fd "previous" with
        | some prev_date => (some (current_job_ids ∩ jobIdsOnDate db k nm prev_date), some fd)
        | none => (some (∅ : Finset Nat), some fd)
      else if st = "removed" then
        match getAdjacentDate db k nm fd "previous" with
        | some prev_date => (some (jobIdsOnDate db k nm prev_date \ current_job_ids), some prev_date)
        | none => (some (∅ : Finset Nat), some fd)
      else (none, some fd)
  | fd, _, _ => (none, fd)

/-- `level IN (...)` on a nullable column: NULL is in no list. -/
def optInList (o : Option String) (xs : List String) : Bool :=
  match o with
  | none => false
  | some s => xs.contains s

/-- The filter pipeline of `get_jobs_with_filters` after the early-empty
    check: join, optional date join (on `query_date`), `id IN` restriction,
    the optional filters in source order, visibility, `DISTINCT` when a
    date join was made, and the SELECTed row shape.  The regex filters
    validate through `sanitize_regex` and so can fail. -/
def applyFilters (db : DB) (k : Option APIKey) (rm : String → String → Bool)
    (rc : String → Option String) (p : FilterParams)
    (job_id_filter : Option (Finset Nat)) (query_date : Option Nat) :
    Except String (List ResultRow) := do
  let rows := joinRows db
  let rows : List (Job × Company) := match p.found_on_date with
    | some _ => rows.flatMap fun jc =>
        (db.inserts.filter fun i =>
          jc.1.id == i.job_id && some i.scrape_date == query_date).map fun _ => jc
    | none => rows
  let rows : List (Job × Company) := match job_id_filter with
    | some s => rows.filter fun jc => decide (jc.1.id ∈ s)
    | none => rows
  let rows : List (Job × Company) := if truthy p.company_name then
      rows.filter fun jc => some jc.2.name == p.company_name
    else rows
  let rows : List (Job × Company) := if truthyL p.company_names then
      rows.filter fun jc => (p.company_names.getD []).contains jc.2.name
    else rows
  let rows : List (Job × Company) := if truthyN p.company_id then
      rows.filter fun jc => some jc.2.id == p.company_id
    else rows
  let rows : List (Job × Company) := if truthy p.title_contains then
      rows.filter fun jc =>
        optIlike jc.1.title (likePattern (sanitize_like_pattern (sanitize_string p.title_contains)))
    else rows
  let rows : List (Job × Company) := if truthy p.title_excludes then
      rows.filter fun jc =>
        optNotIlike jc.1.title (likePattern (sanitize_like_pattern (sanitize_string p.title_excludes)))
    else rows
  let rows : List (Job × Company) ← if truthy p.title_regex then do
      let sanitized ← sanitize_regex rc (sanitize_string p.title_regex)
      pure (rows.filter fun jc => optRegexMatch rm jc.1.title (sanitized.getD ""))
    else pure rows
  let rows : List (Job × Company) := if truthy p.level then
      rows.filter fun jc => jc.1.level == p.level
    else rows
  let rows : List (Job × Company) := if truthyL p.levels then
      rows.filter fun jc => optInList jc.1.level (p.levels.getD [])
    else rows
  let rows : List (Job × Company) := if truthy p.contract_type then
      rows.filter fun jc => jc.1.contract_type == p.contract_type
    else rows
  let rows : List (Job × Company) := if truthy p.location then
      rows.filter fun jc =>
        let pat := likePattern (sanitize_like_pattern (sanitize_string p.location))
        optIlike jc.1.work_location pat || optIlike jc.1.work_location_short pat ||
          optIlike jc.1.all_locations pat
    else rows
  let rows : List (Job × Company) := if truthy p.function then
      rows.filter fun jc =>
        optIlike jc.1.function (likePattern (sanitize_like_pattern (sanitize_string p.function)))
    else rows
  let rows : List (Job × Company) ← if truthy p.function_regex then do
      let sanitized ← sanitize_regex rc (sanitize_string p.function_regex)
      pure (rows.filter fun jc => optRegexMatch rm jc.1.function (sanitized.getD ""))
    else pure rows
  let rows : List (Job × Company) := if truthy p.department then
      rows.filter fun jc =>
        optIlike jc.1.department (likePattern (sanitize_like_pattern (sanitize_string p.department)))
    else rows
  let rows : List (Job × Company) := if truthy p.keywords then
      rows.filter fun jc =>
        optIlike jc.1.keywords (likePattern (sanitize_like_pattern (sanitize_string p.keywords)))
    else rows
  let rows : List (Job × Company) := rows.filter fun jc => hiddenPass k jc.2
  let selected := rows.map fun jc => ((jc.1, jc.2, firstSeen db jc.1, lastSeen db jc.1) : ResultRow)
  let selected := if p.found_on_date.isSome then selected.dedup else selected
  pure selected

/-- `JobService.get_jobs_with_filters`: status classification, the early
    empty return when the computed id set is empty, the filter pipeline,
    `total` counted before pagination, then `count_only` / offset / limit. -/
def get_jobs_with_filters (db : DB) (k : Option APIKey) (rm : String → String → Bool)
    (rc : String → Option String) (p : FilterParams) :
    Except String (List ResultRow × Nat) :=
  let jf := jobStatusFilter db k p.company_name p.found_on_date p.job_status
  if jf.1 = some (∅ : Finset Nat) then .ok ([], 0)
  else
    match applyFilters db k rm rc p jf.1 jf.2 with
    | .error e => .error e
    | .ok selected =>
      let total := selected.length
      if p.count_only then .ok ([], total)
      else
        let paged := selected.drop p.skip
        let paged := match p.limit with
          | some l => if l == 0 then paged else paged.take l
          | none => paged
        .ok (paged, total)

/-! ## Statistics aggregator (`JobService.get_jobs_statistics`) -/

/-- One record of the per-company time series. -/
structure DateStat where
  date : Nat
  open_positions : Nat
  newly_added : Nat
  removed : Nat
deriving DecidableEq

structure CompanyStats where
  company_name : String
  dates : List DateStat
deriving DecidableEq

/-- The base query of `get_jobs_statistics`: `(company_name, scrape_date,
    job_id)` rows from inserts joined to jobs and companies, restricted by
    visibility and the optional company-name filters. -/
def statsRows (db : DB) (k : Option APIKey)
    (company_name : Option String) (company_names : Option (List String)) :
    List (String × Nat × Nat) :=
  db.inserts.flatMap fun i =>
    (db.jobs.filter fun j => i.job_id == j.id).flatMap fun j =>
      ((db.companies.filter fun c =>
          j.company_id == c.id && hiddenPass k c &&
          (if truthy company_name then some c.name == company_name else true) &&
          (if truthyL company_names then (company_names.getD []).contains c.name else true)).map
        fun c => (c.name, i.scrape_date, i.job_id))

/-- The per-(company, date) job-id sets the Python code accumulates in
    `company_date_jobs[company][date]`. -/
def jobsOn (rows : List (String × Nat × Nat)) (name : String) (d : Nat) : Finset Nat :=
  ((rows.filter fun r => r.1 == name && r.2.1 == d).map fun r => r.2.2).toFinset

/-- The distinct observed dates of a company (the keys of
    `company_date_jobs[company]`). -/
def datesOf (rows : List (String × Nat × Nat)) (name : String) : List Nat :=
  ((rows.filter fun r => r.1 == name).map fun r => r.2.1).dedup

/-- `sorted(date_jobs.keys(), reverse=True)`. -/
def sortedDatesDesc (rows : List (String × Nat × Nat)) (name : String) : List Nat :=
  (List.insertionSort (· ≤ ·) (datesOf rows name)).reverse

/-- The record computed for date `d` given the chronologically previous
    observed date (`sorted_dates[prev_idx]` when `prev_idx` is in range,
    i.e. the head of the remaining descending list). -/
def statAt (jobs : Nat → Finset Nat) (d : Nat) : Option Nat → DateStat
  | some prev_date =>
    { date := d, open_positions := (jobs d).card,
      newly_added := (jobs d \ jobs prev_date).card,
      removed := (jobs prev_date \ jobs d).card }
  | none =>
    { date := d, open_positions := (jobs d).card,
      newly_added := (jobs d).card, removed := 0 }

/-- The per-date loop of `get_jobs_statistics`: walk the descending date
    list; the chronologically previous date of the head is the head of the
    tail (`prev_idx = i + 1`); a date not matching the `found_on_date`
    filter is skipped (`continue`) but still serves as predecessor. -/
def datesStats (jobs : Nat → Finset Nat) (found_on_date : Option Nat) :
    List Nat → List DateStat
  | [] => []
  | d :: rest =>
    let tail := datesStats jobs found_on_date rest
    let stat := statAt jobs d rest.head?
    match found_on_date with
    | some f => if d = f then stat :: tail else tail
    | none => stat :: tail

/-- `JobService.get_jobs_statistics`: group the rows per company, compute
    the per-date series, and keep a company only if it has matching dates.
    The Python code lists companies in name order (its SQL `ORDER BY`);
    here they appear in first-occurrence order — the per-company records,
    which is all the verified properties speak about, are identical. -/
def get_jobs_statistics (db : DB) (k : Option APIKey)
    (company_name : Option String := none) (company_names : Option (List String) := none)
    (found_on_date : Option Nat := none) : List CompanyStats :=
  let rows := statsRows db k company_name company_names
  ((rows.map fun r => r.1).dedup).filterMap fun nm =>
    let ds := datesStats (jobsOn rows nm) found_on_date (sortedDatesDesc rows nm)
    if ds.isEmpty then none else some { company_name := nm, dates := ds }

/-! ## Ingestion (`get_or_create_company`, `find_existing_job`,
`create_or_update_job`, `create_insert`, `insert_job`) -/

/-- The subset of `schemas.JobInsertRequest` the embedding carries
    (descriptive fields no claim reads are omitted). -/
structure JobInsertRequest where
  company_name : String
  hidden : Bool := false
  job_id : Option String := none
  url : Option String := none
  title : Option String := none
  function : Option String := none
  level : Option String := none
  contract_type : Option String := none
  work_location : Option String := none
  work_location_short : Option String := none
  all_locations : Option String := none
  department : Option String := none
  keywords : Option String := none
  scrape_date : Option Nat := none

structure JobInsertResponse where
  job_id : Nat
  insert_id : Int
  is_new_job : Bool
  message : String
deriving DecidableEq

/-- `JobService.get_or_create_company`: find by (name, hidden) or append a
    fresh row. -/
def get_or_create_company (db : DB) (company_name : String) (hidden : Bool := false) :
    DB × Company :=
  match db.companies.find? (fun c => c.name == company_name && c.hidden == hidden) with
  | some c => (db, c)
  | none =>
    let c : Company := { id := db.nextCompanyId, name := company_name, hidden := hidden }
    ({ db with companies := db.companies ++ [c], nextCompanyId := db.nextCompanyId + 1 }, c)

/-- `JobService.find_existing_job`: within the company, match on the
    external `job_id` if truthy, else on `url` if truthy, else nothing. -/
def find_existing_job (db : DB) (company_id : Nat)
    (job_id : Option String := none) (url : Option String := none) : Option Job :=
  let base := db.jobs.filter fun j => j.company_id == company_id
  if truthy job_id then (base.filter fun j => j.job_id == job_id).head?
  else if truthy url then (base.filter fun j => j.url == url).head?
  else none

/-- `JobService.create_or_update_job`: resolve the company, look for an
    existing job, else append a new one; returns `(db, job, is_new)`. -/
def create_or_update_job (db : DB) (r : JobInsertRequest) : DB × Job × Bool :=
  let dc := get_or_create_company db r.company_name r.hidden
  match find_existing_job dc.1 dc.2.id r.job_id r.url with
  | some existing => (dc.1, existing, false)
  | none =>
    let job : Job :=
      { id := dc.1.nextJobId, company_id := dc.2.id, job_id := r.job_id, url := r.url,
        title := r.title, function := r.function, level := r.level,
        contract_type := r.contract_type, work_location := r.work_location,
        work_location_short := r.work_location_short, all_locations := r.all_locations,
        department := r.department, keywords := r.keywords }
    ({ dc.1 with jobs := dc.1.jobs ++ [job], nextJobId := dc.1.nextJobId + 1 }, job, true)

/-- `JobService.create_insert`: append a snapshot entry unless one with the
    same `(job_id, scrape_date)` already exists (then return `none`). -/
def create_insert (db : DB) (job_id : Nat) (scrape_date : Nat) : DB × Option InsertRow :=
  match db.inserts.find? (fun i => i.job_id == job_id && i.scrape_date == scrape_date) with
  | some _ => (db, none)
  | none =>
    let ins : InsertRow := { id := db.nextInsertId, job_id := job_id, scrape_date := scrape_date }
    ({ db with inserts := db.inserts ++ [ins], nextInsertId := db.nextInsertId + 1 }, some ins)

/-- `JobService.insert_job`: create/fetch the job, then the snapshot entry
    for `scrape_date or today`, and build the response; when the entry
    already existed, re-query it for its id (`-1` if unexpectedly absent). -/
def insert_job (db : DB) (r : JobInsertRequest) (today : Nat) : DB × JobInsertResponse :=
  let jn := create_or_update_job db r
  let scrape_date := r.scrape_date.getD today
  let di := create_insert jn.1 jn.2.1.id scrape_date
  match di.2 with
  | some ins =>
    (di.1,
      { job_id := jn.2.1.id, insert_id := (ins.id : Int), is_new_job := jn.2.2,
        message := if jn.2.2 then "New job created with insert record"
                   else "Existing job found, new insert record created" })
  | none =>
    let message := if !jn.2.2 then "Job and insert record already exist for this date"
                   else "New job created but insert record already exists for this date"
    match di.1.inserts.find? (fun i => i.job_id == jn.2.1.id && i.scrape_date == scrape_date) with
    | some existing =>
      (di.1, { job_id := jn.2.1.id, insert_id := (existing.id : Int),
               is_new_job := jn.2.2, message := message })
    | none =>
      (di.1, { job_id := jn.2.1.id, insert_id := -1, is_new_job := jn.2.2, message := message })

/-- The parameters of a listing request filtered to `removed` status:
    company name, reference date, status, everything else defaulted. -/
def removedParams (name : String) (D : Nat) : FilterParams :=
  { company_name := some name, found_on_date := some D, job_status := some "removed" }

/-- A concrete ingestion request for the C9 witness. -/
def c9req : JobInsertRequest :=
  { company_name := "Acme", job_id := some "X1", scrape_date := some 5 }

/-- An empty store for the C9 witness. -/
def c9db : DB := {}

/-! ## Shared example data

A small concrete store used by the witness theorems: company `Acme`
observed on date 1 with jobs `{1, 2}` and on date 8 with jobs `{2, 3}`
(the scenario of §8 of the specification). -/

def acmeDb : DB :=
  { companies := [{ id := 1, name := "Acme", hidden := false }],
    jobs := [{ id := 1, company_id := 1 }, { id := 2, company_id := 1 },
             { id := 3, company_id := 1 }],
    inserts := [⟨1, 1, 1⟩, ⟨2, 2, 1⟩, ⟨3, 2, 8⟩, ⟨4, 3, 8⟩],
    nextCompanyId := 2, nextJobId := 4, nextInsertId := 5 }

/-! ## Basic membership lemmas for the query pipelines -/

lemma mem_joinRows {db : DB} {jc : Job × Company} :
    jc ∈ joinRows db ↔ jc.1 ∈ db.jobs ∧ jc.2 ∈ db.companies ∧ jc.1.company_id = jc.2.id := by
  simp only [joinRows, List.mem_flatMap, List.mem_map, List.mem_filter, beq_iff_eq]
  constructor
  · rintro ⟨j, hj, c, ⟨hc, hcc⟩, rfl⟩
    exact ⟨hj, hc, hcc⟩
  · rintro ⟨h1, h2, h3⟩
    exact ⟨jc.1, h1, jc.2, ⟨h2, h3⟩, rfl⟩

lemma mem_observedDates {db : DB} {k : Option APIKey} {name : String} {d : Nat} :
    d ∈ observedDates db k name ↔
      ∃ i ∈ db.inserts, insertVisible db k name i = true ∧ i.scrape_date = d := by
  simp only [observedDates, List.mem_map, List.mem_filter]
  constructor
  · rintro ⟨i, ⟨hi, hvis⟩, rfl⟩
    exact ⟨i, hi, hvis, rfl⟩
  · rintro ⟨i, hi, hvis, rfl⟩
    exact ⟨i, ⟨hi, hvis⟩, rfl⟩

lemma mem_jobIdsOnDate {db : DB} {k : Option APIKey} {name : String} {d x : Nat} :
    x ∈ jobIdsOnDate db k name d ↔
      ∃ j ∈ db.jobs, j.id = x ∧
        (∃ c ∈ db.companies, j.company_id = c.id ∧ c.name = name ∧ hiddenPass k c = true) ∧
        (∃ i ∈ db.inserts, j.id = i.job_id ∧ i.scrape_date = d) := by
  simp only [jobIdsOnDate, List.mem_toFinset, List.mem_map, List.mem_filter, Bool.and_eq_true,
    List.any_eq_true, beq_iff_eq]
  aesop

/-- `l.max?` of a `Nat` list is its greatest element. -/
lemma nat_max?_eq_some_iff {l : List Nat} {a : Nat} :
    l.max? = some a ↔ a ∈ l ∧ ∀ b ∈ l, b ≤ a := by
  rw [List.max?_eq_some_iff] <;> simp [Nat.le_total]

/-- `l.min?` of a `Nat` list is its least element. -/
lemma nat_min?_eq_some_iff {l : List Nat} {a : Nat} :
    l.min? = some a ↔ a ∈ l ∧ ∀ b ∈ l, a ≤ b := by
  rw [List.min?_eq_some_iff] <;> simp [Nat.le_total]

/-! ## Claim theorems -/

/-- A `rfl` normal form for `sanitize_regex` on a present pattern. -/
lemma sanitize_regex_some (rc : String → Option String) (v : String) (m : Nat) :
    sanitize_regex rc (some v) m =
      if v.length > m then
        .error ("Regex pattern exceeds maximum length of " ++ toString m ++ " characters")
      else if hasDangerous v then
        .error "Regex pattern contains potentially dangerous constructs"
      else if openParens v > 10 then
        .error "Regex pattern contains too many nested groups"
      else
        match rc v with
        | some e => .error ("Invalid regex pattern: " ++ e)
        | none => .ok (some v) := rfl

/-- C2 (amended): `sanitize_regex` fails exactly when the pattern exceeds
    the maximum length, matches one of the seven deny-listed
    catastrophic-backtracking shapes, has more than 10 unescaped opening
    groups, or does not compile; it rejects `"(.+)*"` and any pattern with
    11+ unescaped opening groups, accepts `"^Senior.*Engineer$"`, accepts
    `"(a*)+"` (whose repeated group contains a literal rather than a dot or
    bracket class, so no deny-list entry matches it), and on success
    returns the input pattern unchanged. -/
theorem C2_sanitize_regex_characterization (rc : String → Option String) (v : String) (m : Nat) :
    (∀ x, sanitize_regex rc (some v) m = .ok x → x = some v) ∧
    ((∃ e, sanitize_regex rc (some v) m = .error e) ↔
      (v.length > m ∨ hasDangerous v = true ∨ openParens v > 10 ∨ (rc v).isSome = true)) ∧
    sanitize_regex rc (some "(.+)*") 500 =
      .error "Regex pattern contains potentially dangerous constructs" ∧
    (openParens v > 10 → ∃ e, sanitize_regex rc (some v) 500 = .error e) ∧
    (rc "^Senior.*Engineer$" = none →
      sanitize_regex rc (some "^Senior.*Engineer$") 500 = .ok (some "^Senior.*Engineer$")) ∧
    (rc "(a*)+" = none →
      sanitize_regex rc (some "(a*)+") 500 = .ok (some "(a*)+")) := by
  refine ⟨?_, ?_, ?_, ?_, ?_, ?_⟩
  · intro x hx
    rw [sanitize_regex_some] at hx
    split_ifs at hx
    rcases hrc : rc v with _ | e <;> rw [hrc] at hx
    · exact (Except.ok.inj hx).symm
    · cases hx
  · rw [sanitize_regex_some]
    split_ifs with h1 h2 h3
    · simp [h1]
    · simp [h1, h2]
    · simp [h1, h2, h3]
    · rcases hrc : rc v with _ | e
      · simp [h1, h2, h3, hrc]
      · simp [h1, h2, h3, hrc]
  · rw [sanitize_regex_some]
    rw [if_neg (by decide), if_pos (by decide)]
  · intro hp
    rw [sanitize_regex_some]
    by_cases h1 : v.length > 500
    · rw [if_pos h1]; exact ⟨_, rfl⟩
    · rw [if_neg h1]
      by_cases h2 : hasDangerous v = true
      · rw [if_pos h2]; exact ⟨_, rfl⟩
      · rw [if_neg h2, if_pos hp]; exact ⟨_, rfl⟩
  · intro hrc
    rw [sanitize_regex_some, if_neg (by decide), if_neg (by decide), if_neg (by decide), hrc]
  · intro hrc
    rw [sanitize_regex_some, if_neg (by decide), if_neg (by decide), if_neg (by decide), hrc]

/-- Witness for C2: concrete acceptances and rejections obtained from the
    characterization theorem. -/
theorem C2_witness :
    sanitize_regex (fun _ => none) (some "^Senior.*Engineer$") 500 =
      .ok (some "^Senior.*Engineer$") ∧
    (∃ e, sanitize_regex (fun _ => none) (some "(((((((((((") 500 = .error e) ∧
    sanitize_regex (fun _ => none) (some "(.+)*") 500 =
      .error "Regex pattern contains potentially dangerous constructs" :=
  ⟨(C2_sanitize_regex_characterization (fun _ => none) "a" 500).2.2.2.2.1 rfl,
   (C2_sanitize_regex_characterization (fun _ => none) "(((((((((((" 500).2.2.2.1 (by decide),
   (C2_sanitize_regex_characterization (fun _ => none) "a" 500).2.2.1⟩

/-- Counterexample to C2 as stated: the claim asserts `sanitize_regex`
    rejects `"(a*)+"`, but the deny list only matches groups whose body is
    a dot form or a bracket class, so `"(a*)+"` — which Python's
    `re.compile` accepts, hence the oracle returning `none` — is accepted
    and returned unchanged. -/
theorem C2_counterexample :
    sanitize_regex (fun _ => none) (some "(a*)+") 500 = .ok (some "(a*)+") ∧
    hasDangerous "(a*)+" = false := by decide

/-- C7: looking up a job of a hidden company with a principal that has
    neither `read_hidden` nor `admin` (or no principal at all) yields the
    same `none` ("not found") as looking up an id that matches no job at
    all; the lookup's type has no error outlet, so no distinct permission
    error can be surfaced. -/
theorem C7_hidden_job_lookup (db : DB) (k : Option APIKey) (jid nid : Nat)
    (hk : mayReadHidden k = false)
    (hhid : ∀ j ∈ db.jobs, j.id = jid →
      ∀ c ∈ db.companies, j.company_id = c.id → c.hidden = true)
    (hnid : ∀ j ∈ db.jobs, j.id ≠ nid) :
    get_job_by_id db jid k = none ∧ get_job_by_id db jid k = get_job_by_id db nid k := by
  have h1 : get_job_by_id db jid k = none := by
    rw [get_job_by_id, List.head?_eq_none_iff, List.filter_eq_nil_iff]
    rintro ⟨j, c⟩ hjc
    rw [mem_joinRows] at hjc
    obtain ⟨hj, hc, hcc⟩ := hjc
    simp only [Bool.and_eq_true, beq_iff_eq, not_and]
    intro hid
    have := hhid j hj hid c hc hcc
    simp [hiddenPass, hk, this]
  have h2 : get_job_by_id db nid k = none := by
    rw [get_job_by_id, List.head?_eq_none_iff, List.filter_eq_nil_iff]
    rintro ⟨j, c⟩ hjc
    rw [mem_joinRows] at hjc
    simp only [Bool.and_eq_true, beq_iff_eq, not_and]
    intro hid
    exact absurd hid (hnid j hjc.1)
  exact ⟨h1, h1.trans h2.symm⟩

/-- Witness for C7: a hidden company's job (id 7) and a nonexistent id
    (99) both resolve to `none` for an anonymous principal. -/
theorem C7_witness :
    get_job_by_id { companies := [⟨1, "Ghost", true⟩],
                    jobs := [{ id := 7, company_id := 1 }] } 7 none = none :=
  (C7_hidden_job_lookup
    { companies := [⟨1, "Ghost", true⟩], jobs := [{ id := 7, company_id := 1 }] }
    none 7 99 rfl (by decide) (by decide)).1

/-- C6: `_get_adjacent_date` returns, for direction `previous`, the
    maximum observed date strictly below the reference date, for `next`
    the minimum observed date strictly above it, `none` when no observed
    date lies on the required side, and any returned date carries at least
    one visible snapshot entry (dates with zero observations are never
    candidates). -/
theorem C6_adjacent_date (db : DB) (k : Option APIKey) (name : String) (R : Nat) :
    (∀ d, getAdjacentDate db k name R "previous" = some d ↔
      (d ∈ observedDates db k name ∧ d < R ∧
        ∀ e ∈ observedDates db k name, e < R → e ≤ d)) ∧
    (getAdjacentDate db k name R "previous" = none ↔
      ∀ e ∈ observedDates db k name, ¬ e < R) ∧
    (∀ d, getAdjacentDate db k name R "next" = some d ↔
      (d ∈ observedDates db k name ∧ R < d ∧
        ∀ e ∈ observedDates db k name, R < e → d ≤ e)) ∧
    (getAdjacentDate db k name R "next" = none ↔
      ∀ e ∈ observedDates db k name, ¬ R < e) ∧
    (∀ dir d, getAdjacentDate db k name R dir = some d →
      ∃ i ∈ db.inserts, insertVisible db k name i = true ∧ i.scrape_date = d) := by
  have hprev : ∀ d, getAdjacentDate db k name R "previous" = some d ↔
      (d ∈ observedDates db k name ∧ d < R ∧
        ∀ e ∈ observedDates db k name, e < R → e ≤ d) := by
    intro d
    rw [getAdjacentDate, if_pos rfl, nat_max?_eq_some_iff]
    simp only [List.mem_filter, decide_eq_true_eq]
    constructor
    · rintro ⟨⟨hd, hlt⟩, hmax⟩
      exact ⟨hd, hlt, fun e he helt => hmax e ⟨he, helt⟩⟩
    · rintro ⟨hd, hlt, hmax⟩
      exact ⟨⟨hd, hlt⟩, fun e ⟨he, helt⟩ => hmax e he helt⟩
  have hnext : ∀ d, getAdjacentDate db k name R "next" = some d ↔
      (d ∈ observedDates db k name ∧ R < d ∧
        ∀ e ∈ observedDates db k name, R < e → d ≤ e) := by
    intro d
    rw [getAdjacentDate, if_neg (by decide), nat_min?_eq_some_iff]
    simp only [List.mem_filter, decide_eq_true_eq]
    constructor
    · rintro ⟨⟨hd, hlt⟩, hmin⟩
      exact ⟨hd, hlt, fun e he helt => hmin e ⟨he, helt⟩⟩
    · rintro ⟨hd, hlt, hmin⟩
      exact ⟨⟨hd, hlt⟩, fun e ⟨he, helt⟩ => hmin e he helt⟩
  refine ⟨hprev, ?_, hnext, ?_, ?_⟩
  · rw [getAdjacentDate, if_pos rfl, List.max?_eq_none_iff, List.filter_eq_nil_iff]
    simp
  · rw [getAdjacentDate, if_neg (by decide), List.min?_eq_none_iff, List.filter_eq_nil_iff]
    simp
  · intro dir d hd
    rw [getAdjacentDate] at hd
    split_ifs at hd
    · obtain ⟨hmem, -⟩ := nat_max?_eq_some_iff.mp hd
      exact mem_observedDates.mp (List.mem_filter.mp hmem).1
    · obtain ⟨hmem, -⟩ := nat_min?_eq_some_iff.mp hd
      exact mem_observedDates.mp (List.mem_filter.mp hmem).1

/-- Witness for C6: on the Acme store, the previous adjacent date of 8 is
    its greatest strict lower bound among observed dates, namely 1. -/
theorem C6_witness :
    1 ∈ observedDates acmeDb none "Acme" ∧ 1 < 8 ∧
      ∀ e ∈ observedDates acmeDb none "Acme", e < 8 → e ≤ 1 :=
  ((C6_adjacent_date acmeDb none "Acme" 8).1 1).mp (by decide)

/-- C5: when a previous adjacent date exists, the `new` and `existing`
    id sets computed by the status classifier are the set difference and
    intersection against the previous date's set, they are disjoint, their
    union is the reference date's set, and their cardinalities add up to
    the number of jobs observed on the reference date. -/
theorem C5_new_existing_partition (db : DB) (k : Option APIKey) (name : String) (D pd : Nat)
    (hname : name ≠ "") (hprev : getAdjacentDate db k name D "previous" = some pd) :
    jobStatusFilter db k (some name) (some D) (some "new") =
      (some (jobIdsOnDate db k name D \ jobIdsOnDate db k name pd), some D) ∧
    jobStatusFilter db k (some name) (some D) (some "existing") =
      (some (jobIdsOnDate db k name D ∩ jobIdsOnDate db k name pd), some D) ∧
    (jobIdsOnDate db k name D).card =
      (jobIdsOnDate db k name D \ jobIdsOnDate db k name pd).card +
        (jobIdsOnDate db k name D ∩ jobIdsOnDate db k name pd).card ∧
    Disjoint (jobIdsOnDate db k name D \ jobIdsOnDate db k name pd)
      (jobIdsOnDate db k name D ∩ jobIdsOnDate db k name pd) ∧
    (jobIdsOnDate db k name D \ jobIdsOnDate db k name pd) ∪
      (jobIdsOnDate db k name D ∩ jobIdsOnDate db k name pd) =
      jobIdsOnDate db k name D := by
  refine ⟨?_, ?_, (Finset.card_sdiff_add_card_inter _ _).symm,
    Finset.disjoint_sdiff_inter _ _, Finset.sdiff_union_inter _ _⟩
  · rw [jobStatusFilter, if_neg (by simp [hname]), if_pos rfl, hprev]
  · rw [jobStatusFilter, if_neg (by simp [hname]), if_neg (by decide), if_pos rfl, hprev]

/-- Witness for C5: the partition identity on the Acme store at reference
    date 8 with previous date 1. -/
theorem C5_witness :
    (jobIdsOnDate acmeDb none "Acme" 8).card =
      (jobIdsOnDate acmeDb none "Acme" 8 \ jobIdsOnDate acmeDb none "Acme" 1).card +
        (jobIdsOnDate acmeDb none "Acme" 8 ∩ jobIdsOnDate acmeDb none "Acme" 1).card :=
  (C5_new_existing_partition acmeDb none "Acme" 8 1 (by decide) (by decide)).2.2.1

/-! ## Statistics lemmas -/

@[simp]
lemma statAt_date (jobs : Nat → Finset Nat) (d : Nat) (o : Option Nat) :
    (statAt jobs d o).date = d := by cases o <;> rfl

lemma datesStats_cons_none (jobs : Nat → Finset Nat) (d : Nat) (rest : List Nat) :
    datesStats jobs none (d :: rest) =
      statAt jobs d rest.head? :: datesStats jobs none rest := rfl

lemma datesStats_cons_some (jobs : Nat → Finset Nat) (f d : Nat) (rest : List Nat) :
    datesStats jobs (some f) (d :: rest) =
      if d = f then statAt jobs d rest.head? :: datesStats jobs (some f) rest
      else datesStats jobs (some f) rest := rfl

/-- Applying the target-date filter inside the loop is the same as
    filtering the unfiltered series by date afterwards; in particular the
    predecessor used for each delta comes from the full date list. -/
lemma datesStats_filter (jobs : Nat → Finset Nat) (f : Nat) (l : List Nat) :
    datesStats jobs (some f) l = (datesStats jobs none l).filter (fun st => st.date == f) := by
  induction l with
  | nil => rfl
  | cons d rest ih =>
    rw [datesStats_cons_some, datesStats_cons_none, List.filter_cons, ih]
    by_cases hdf : d = f
    · simp [hdf]
    · simp [hdf]

lemma mem_datesOf {rows : List (String × Nat × Nat)} {name : String} {d : Nat} :
    d ∈ datesOf rows name ↔ ∃ r ∈ rows, r.1 = name ∧ r.2.1 = d := by
  simp only [datesOf, List.mem_dedup, List.mem_map, List.mem_filter, beq_iff_eq]
  aesop

lemma mem_sortedDatesDesc {rows : List (String × Nat × Nat)} {name : String} {d : Nat} :
    d ∈ sortedDatesDesc rows name ↔ d ∈ datesOf rows name := by
  rw [sortedDatesDesc, List.mem_reverse]
  exact (List.perm_insertionSort _ _).mem_iff

lemma sortedDatesDesc_pairwise (rows : List (String × Nat × Nat)) (name : String) :
    (sortedDatesDesc rows name).Pairwise (· > ·) := by
  rw [sortedDatesDesc, List.pairwise_reverse]
  exact List.Sorted.lt_of_le (List.sorted_insertionSort _ _)
    (((List.perm_insertionSort _ _).nodup_iff).mpr (List.nodup_dedup _))

/-- The per-date loop on a strictly descending date list: each produced
    record reports the cardinality of its date's job set, and its deltas
    are computed against the greatest date below it in the list (resp. are
    `open/0` when no smaller date exists). -/
lemma datesStats_none_spec (jobs : Nat → Finset Nat) :
    ∀ l : List Nat, l.Pairwise (· > ·) → ∀ st ∈ datesStats jobs none l,
      st.date ∈ l ∧
      st.open_positions = (jobs st.date).card ∧
      ((∀ e ∈ l, ¬ e < st.date) → st.newly_added = st.open_positions ∧ st.removed = 0) ∧
      (∀ d' ∈ l, d' < st.date → (∀ e ∈ l, e < st.date → e ≤ d') →
        st.newly_added = (jobs st.date \ jobs d').card ∧
        st.removed = (jobs d' \ jobs st.date).card) := by
  intro l
  induction l with
  | nil => intro _ st hst; cases hst
  | cons d rest ih =>
    intro hpw st hst
    have hd : ∀ x ∈ rest, d > x := (List.pairwise_cons.mp hpw).1
    have hrest := List.Pairwise.of_cons hpw
    rw [datesStats_cons_none] at hst
    rcases List.mem_cons.mp hst with hhd | htl
    · subst hhd
      rcases hr : rest with _ | ⟨pd, rest'⟩
      · refine ⟨List.mem_cons_self _ _, rfl, fun _ => ⟨rfl, rfl⟩, ?_⟩
        intro d' hd' hlt _
        simp only [statAt_date] at hlt
        rcases List.mem_singleton.mp hd' with rfl
        exact absurd hlt (lt_irrefl _)
      · subst hr
        have hpd : pd < d := hd pd (List.mem_cons_self _ _)
        refine ⟨List.mem_cons_self _ _, rfl, ?_, ?_⟩
        · intro hno
          exact absurd hpd (hno pd (List.mem_cons_of_mem _ (List.mem_cons_self _ _)))
        · intro d' hd' hlt hmax
          simp only [statAt_date] at hlt
          have hdpd : pd ≤ d' := hmax pd (List.mem_cons_of_mem _ (List.mem_cons_self _ _)) hpd
          have hd'pd : d' ≤ pd := by
            rcases List.mem_cons.mp hd' with rfl | hd'r
            · exact absurd hlt (lt_irrefl _)
            · rcases List.mem_cons.mp hd'r with rfl | hd'r'
              · exact le_refl _
              · exact le_of_lt ((List.pairwise_cons.mp hrest).1 d' hd'r')
          have : d' = pd := le_antisymm hd'pd hdpd
          subst this
          exact ⟨rfl, rfl⟩
    · have hih := ih hrest st htl
      have hstd : st.date ∈ rest := hih.1
      have hdst : st.date < d := hd _ hstd
      refine ⟨List.mem_cons_of_mem _ hstd, hih.2.1, ?_, ?_⟩
      · intro hno
        exact hih.2.2.1 (fun e he => hno e (List.mem_cons_of_mem _ he))
      · intro d' hd' hlt hmax
        have hd'r : d' ∈ rest := by
          rcases List.mem_cons.mp hd' with rfl | h
          · exact absurd (lt_trans hlt hdst) (lt_irrefl _)
          · exact h
        exact hih.2.2.2 d' hd'r hlt (fun e he => hmax e (List.mem_cons_of_mem _ he))

/-- Destruct membership in the statistics output: a company record is the
    `datesStats` series of its name over the full sorted date list. -/
lemma stats_mem_elim {db : DB} {k : Option APIKey} {cn : Option String}
    {cns : Option (List String)} {fod : Option Nat} {cs : CompanyStats}
    (h : cs ∈ get_jobs_statistics db k cn cns fod) :
    cs.company_name ∈ ((statsRows db k cn cns).map (fun r => r.1)).dedup ∧
    cs.dates = datesStats (jobsOn (statsRows db k cn cns) cs.company_name) fod
      (sortedDatesDesc (statsRows db k cn cns) cs.company_name) ∧
    cs.dates ≠ [] := by
  obtain ⟨nm, hnm, hf⟩ := List.mem_filterMap.mp h
  by_cases he : (datesStats (jobsOn (statsRows db k cn cns) nm) fod
      (sortedDatesDesc (statsRows db k cn cns) nm)).isEmpty
  · rw [if_pos he] at hf
    cases hf
  · rw [if_neg he] at hf
    cases hf
    exact ⟨hnm, rfl, by simpa [List.isEmpty_iff] using he⟩

/-- C3: every record in the statistics output satisfies
    `openPositions = |jobIds(date)|`; its deltas are taken against the
    chronologically previous observed date of that company in the full
    observed-date list (the greatest observed date strictly below it), and
    when no earlier observed date exists, `newlyAdded = openPositions` and
    `removed = 0`. -/
theorem C3_statistics_deltas (db : DB) (k : Option APIKey) (cn : Option String)
    (cns : Option (List String)) (fod : Option Nat) :
    ∀ cs ∈ get_jobs_statistics db k cn cns fod, ∀ st ∈ cs.dates,
      st.date ∈ datesOf (statsRows db k cn cns) cs.company_name ∧
      st.open_positions = (jobsOn (statsRows db k cn cns) cs.company_name st.date).card ∧
      ((∀ e ∈ datesOf (statsRows db k cn cns) cs.company_name, ¬ e < st.date) →
        st.newly_added = st.open_positions ∧ st.removed = 0) ∧
      (∀ d' ∈ datesOf (statsRows db k cn cns) cs.company_name, d' < st.date →
        (∀ e ∈ datesOf (statsRows db k cn cns) cs.company_name, e < st.date → e ≤ d') →
        st.newly_added =
          (jobsOn (statsRows db k cn cns) cs.company_name st.date \
            jobsOn (statsRows db k cn cns) cs.company_name d').card ∧
        st.removed =
          (jobsOn (statsRows db k cn cns) cs.company_name d' \
            jobsOn (statsRows db k cn cns) cs.company_name st.date).card) := by
  intro cs hcs st hst
  obtain ⟨-, hds, -⟩ := stats_mem_elim hcs
  rw [hds] at hst
  have hst' : st ∈ datesStats (jobsOn (statsRows db k cn cns) cs.company_name) none
      (sortedDatesDesc (statsRows db k cn cns) cs.company_name) := by
    rcases fod with _ | f
    · exact hst
    · rw [datesStats_filter] at hst
      exact (List.mem_filter.mp hst).1
  have hspec := datesStats_none_spec (jobsOn (statsRows db k cn cns) cs.company_name)
    (sortedDatesDesc (statsRows db k cn cns) cs.company_name)
    (sortedDatesDesc_pairwise _ _) st hst'
  refine ⟨mem_sortedDatesDesc.mp hspec.1, hspec.2.1, ?_, ?_⟩
  · intro hno
    exact hspec.2.2.1 (fun e he => hno e (mem_sortedDatesDesc.mp he))
  · intro d' hd' hlt hmax
    exact hspec.2.2.2 d' (mem_sortedDatesDesc.mpr hd') hlt
      (fun e he => hmax e (mem_sortedDatesDesc.mp he))

/-- Witness for C3: on the Acme store, the record for date 8 (with the
    full-series predecessor 1) has `newlyAdded = |{2,3} \ {1,2}| = 1` and
    `removed = |{1,2} \ {2,3}| = 1`, and the record for the earliest date 1
    has `newlyAdded = openPositions` and `removed = 0`. -/
theorem C3_witness :
    ((⟨8, 2, 1, 1⟩ : DateStat).newly_added =
        (jobsOn (statsRows acmeDb none none none) "Acme" 8 \
          jobsOn (statsRows acmeDb none none none) "Acme" 1).card ∧
      (⟨8, 2, 1, 1⟩ : DateStat).removed =
        (jobsOn (statsRows acmeDb none none none) "Acme" 1 \
          jobsOn (statsRows acmeDb none none none) "Acme" 8).card) ∧
    ((⟨1, 2, 2, 0⟩ : DateStat).newly_added = (⟨1, 2, 2, 0⟩ : DateStat).open_positions ∧
      (⟨1, 2, 2, 0⟩ : DateStat).removed = 0) :=
  ⟨(C3_statistics_deltas acmeDb none none none none
      ⟨"Acme", [⟨8, 2, 1, 1⟩, ⟨1, 2, 2, 0⟩]⟩ (by decide) ⟨8, 2, 1, 1⟩
      (by decide)).2.2.2 1 (by decide) (by decide) (by decide),
   (C3_statistics_deltas acmeDb none none none none
      ⟨"Acme", [⟨8, 2, 1, 1⟩, ⟨1, 2, 2, 0⟩]⟩ (by decide) ⟨1, 2, 2, 0⟩
      (by decide)).2.2.1 (by decide)⟩

/-- C4: with a target date filter, each company's output retains exactly
    the records dated at the filter, and every retained record — values
    included — also occurs in that company's unfiltered series, whose
    deltas are computed from the full observed-date list. -/
theorem C4_target_date_filter (db : DB) (k : Option APIKey) (cn : Option String)
    (cns : Option (List String)) (F : Nat) :
    ∀ cs ∈ get_jobs_statistics db k cn cns (some F),
      (∀ st ∈ cs.dates, st.date = F) ∧
      ∃ cs', cs' ∈ get_jobs_statistics db k cn cns none ∧
        cs'.company_name = cs.company_name ∧
        ∀ st ∈ cs.dates, st ∈ cs'.dates := by
  intro cs hcs
  obtain ⟨hnm, hds, hne⟩ := stats_mem_elim hcs
  have hfull : cs.dates = (datesStats (jobsOn (statsRows db k cn cns) cs.company_name) none
      (sortedDatesDesc (statsRows db k cn cns) cs.company_name)).filter
        (fun st => st.date == F) := by
    rw [hds, datesStats_filter]
  constructor
  · intro st hst
    rw [hfull] at hst
    simpa using (List.mem_filter.mp hst).2
  · refine ⟨⟨cs.company_name,
      datesStats (jobsOn (statsRows db k cn cns) cs.company_name) none
        (sortedDatesDesc (statsRows db k cn cns) cs.company_name)⟩, ?_, rfl, ?_⟩
    · apply List.mem_filterMap.mpr
      refine ⟨cs.company_name, hnm, ?_⟩
      rw [if_neg]
      rw [List.isEmpty_iff]
      intro hnil
      rw [hfull, hnil] at hne
      exact hne rfl
    · intro st hst
      rw [hfull] at hst
      exact (List.mem_filter.mp hst).1

/-- Witness for C4: filtering the Acme statistics to date 8 keeps exactly
    the date-8 record, with the same values it has in the full series. -/
theorem C4_witness :
    (∀ st ∈ ({ company_name := "Acme", dates := [⟨8, 2, 1, 1⟩] } : CompanyStats).dates,
      st.date = 8) ∧
    ∃ cs', cs' ∈ get_jobs_statistics acmeDb none none none none ∧
      cs'.company_name = "Acme" ∧
      ∀ st ∈ ({ company_name := "Acme", dates := [⟨8, 2, 1, 1⟩] } : CompanyStats).dates,
        st ∈ cs'.dates :=
  C4_target_date_filter acmeDb none none none 8
    { company_name := "Acme", dates := [⟨8, 2, 1, 1⟩] } (by decide)

/-! ## Pagination (C8) -/

/-- The filter pipeline reads no pagination parameter: changing `skip`,
    `limit` or `count_only` leaves it unchanged (all its accesses to `p`
    are field projections, so this is definitional). -/
lemma applyFilters_pagination_independent (db : DB) (k : Option APIKey)
    (rm : String → String → Bool) (rc : String → Option String) (p : FilterParams)
    (s' : Nat) (l' : Option Nat) (co : Bool) (jif : Option (Finset Nat)) (qd : Option Nat) :
    applyFilters db k rm rc { p with skip := s', limit := l', count_only := co } jif qd =
      applyFilters db k rm rc p jif qd := rfl

/-- Unfolding of `get_jobs_with_filters` with the pagination parameters
    exposed (definitional, by structure eta and projection reduction). -/
lemma gjwf_pagination_unfold (db : DB) (k : Option APIKey)
    (rm : String → String → Bool) (rc : String → Option String) (p : FilterParams)
    (s' : Nat) (l' : Option Nat) (co : Bool) :
    get_jobs_with_filters db k rm rc { p with skip := s', limit := l', count_only := co } =
      (if (jobStatusFilter db k p.company_name p.found_on_date p.job_status).1 =
          some (∅ : Finset Nat) then .ok ([], 0)
       else
        match applyFilters db k rm rc p
            (jobStatusFilter db k p.company_name p.found_on_date p.job_status).1
            (jobStatusFilter db k p.company_name p.found_on_date p.job_status).2 with
        | .error e => .error e
        | .ok selected =>
          if co then .ok ([], selected.length)
          else
            let paged := selected.drop s'
            let paged := match l' with
              | some l => if l == 0 then paged else paged.take l
              | none => paged
            .ok (paged, selected.length)) := rfl

/-- C8: for any combination of filters, the returned `total` is the length
    of the full filtered result set, is invariant under `skip` and `limit`,
    and `skip ≥ total` yields an empty page with the same `total`. -/
theorem C8_pagination_total (db : DB) (k : Option APIKey)
    (rm : String → String → Bool) (rc : String → Option String) (p : FilterParams)
    (rows : List ResultRow) (total : Nat)
    (hco : p.count_only = false)
    (h : get_jobs_with_filters db k rm rc p = .ok (rows, total)) :
    (∃ allRows, get_jobs_with_filters db k rm rc { p with skip := 0, limit := none } =
        .ok (allRows, total) ∧ allRows.length = total) ∧
    (∀ s' l', ∃ rows', get_jobs_with_filters db k rm rc { p with skip := s', limit := l' } =
        .ok (rows', total)) ∧
    (total ≤ p.skip → rows = []) := by
  have hself : get_jobs_with_filters db k rm rc p =
      get_jobs_with_filters db k rm rc
        { p with skip := p.skip, limit := p.limit, count_only := p.count_only } := rfl
  rw [hself, gjwf_pagination_unfold, hco] at h
  by_cases hempty : (jobStatusFilter db k p.company_name p.found_on_date p.job_status).1 =
      some (∅ : Finset Nat)
  · rw [if_pos hempty] at h
    obtain ⟨hrows, htotal⟩ : ([] : List ResultRow) = rows ∧ 0 = total := by
      cases h; exact ⟨rfl, rfl⟩
    refine ⟨⟨[], ?_, by rw [← htotal]; rfl⟩, ?_, fun _ => hrows.symm⟩
    · rw [show ({ p with skip := 0, limit := none } : FilterParams) =
          { p with skip := 0, limit := none, count_only := p.count_only } from rfl,
        gjwf_pagination_unfold, if_pos hempty, ← htotal]
    · intro s' l'
      refine ⟨[], ?_⟩
      rw [show ({ p with skip := s', limit := l' } : FilterParams) =
          { p with skip := s', limit := l', count_only := p.count_only } from rfl,
        gjwf_pagination_unfold, if_pos hempty, ← htotal]
  · rw [if_neg hempty] at h
    rcases haf : applyFilters db k rm rc p
        (jobStatusFilter db k p.company_name p.found_on_date p.job_status).1
        (jobStatusFilter db k p.company_name p.found_on_date p.job_status).2 with e | sel
    · rw [haf] at h; cases h
    · rw [haf] at h
      simp only [Bool.false_eq_true, if_false] at h
      obtain ⟨hrows, htotal⟩ : (match p.limit with
          | some l => if l == 0 then sel.drop p.skip else (sel.drop p.skip).take l
          | none => sel.drop p.skip) = rows ∧ sel.length = total := by
        cases h; exact ⟨rfl, rfl⟩
      refine ⟨⟨sel, ?_, htotal⟩, ?_, ?_⟩
      · rw [show ({ p with skip := 0, limit := none } : FilterParams) =
            { p with skip := 0, limit := none, count_only := p.count_only } from rfl,
          gjwf_pagination_unfold, if_neg hempty, haf, hco]
        simp only [Bool.false_eq_true, if_false, List.drop_zero, htotal]
      · intro s' l'
        refine ⟨(match l' with
          | some l => if l == 0 then sel.drop s' else (sel.drop s').take l
          | none => sel.drop s'), ?_⟩
        rw [show ({ p with skip := s', limit := l' } : FilterParams) =
            { p with skip := s', limit := l', count_only := p.count_only } from rfl,
          gjwf_pagination_unfold, if_neg hempty, haf, hco]
        simp only [Bool.false_eq_true, if_false, htotal]
      · intro hskip
        rw [← htotal] at hskip
        have hdrop : sel.drop p.skip = [] := List.drop_eq_nil_of_le hskip
        rw [← hrows, hdrop]
        rcases p.limit with _ | l
        · rfl
        · show (if (l == 0) = true then ([] : List ResultRow) else List.take l []) = []
          by_cases hl : (l == 0) = true
          · rw [if_pos hl]
          · rw [if_neg hl, List.take_nil]

/-- Witness for C8: on the Acme store with `skip := 5` past the 3-row
    result set, the page is empty while `total` stays 3. -/
theorem C8_witness :
    (∃ allRows, get_jobs_with_filters acmeDb none (fun _ _ => false) (fun _ => none)
        { company_name := some "Acme", skip := 0, limit := none } = .ok (allRows, 3) ∧
        allRows.length = 3) ∧
    (∀ s' l', ∃ rows', get_jobs_with_filters acmeDb none (fun _ _ => false) (fun _ => none)
        { company_name := some "Acme", skip := s', limit := l' } = .ok (rows', 3)) ∧
    (3 ≤ 5 → ([] : List ResultRow) = []) := by
  have h := C8_pagination_total acmeDb none (fun _ _ => false) (fun _ => none)
    { company_name := some "Acme", skip := 5 } [] 3 rfl (by decide)
  exact ⟨h.1, h.2.1, fun _ => rfl⟩

/-! ## The `removed` listing (C1) -/

@[simp] lemma truthy_none : truthy none = false := rfl

@[simp] lemma truthyL_none : truthyL none = false := rfl

@[simp] lemma truthyN_none : truthyN none = false := rfl

/-- The status classifier on a `removed` request with a previous adjacent
    date: the id filter is `jobIdsOnDate(prev) \ jobIdsOnDate(ref)` and the
    query date is redirected to the previous adjacent date. -/
lemma jobStatusFilter_removed_some (db : DB) (k : Option APIKey) (name : String) (D pd : Nat)
    (hname : name ≠ "") (hadj : getAdjacentDate db k name D "previous" = some pd) :
    jobStatusFilter db k (some name) (some D) (some "removed") =
      (some (jobIdsOnDate db k name pd \ jobIdsOnDate db k name D), some pd) := by
  rw [jobStatusFilter, if_neg (by simp [hname]), if_neg (by decide), if_neg (by decide),
    if_pos rfl, hadj]

/-- The status classifier on a `removed` request with no previous adjacent
    date: the id filter is the empty set. -/
lemma jobStatusFilter_removed_none (db : DB) (k : Option APIKey) (name : String) (D : Nat)
    (hname : name ≠ "") (hadj : getAdjacentDate db k name D "previous" = none) :
    jobStatusFilter db k (some name) (some D) (some "removed") =
      (some (∅ : Finset Nat), some D) := by
  rw [jobStatusFilter, if_neg (by simp [hname]), if_neg (by decide), if_neg (by decide),
    if_pos rfl, hadj]

/-- `applyFilters` on a `removed` request (no text filters): the date join
    runs against the supplied query date, then the id restriction, the
    company-name equality, the visibility filter, the row selection and
    `DISTINCT`. -/
lemma applyFilters_removed_eq (db : DB) (k : Option APIKey) (rm : String → String → Bool)
    (rc : String → Option String) (name : String) (D : Nat) (S : Finset Nat) (pd : Nat)
    (hname : name ≠ "") :
    applyFilters db k rm rc (removedParams name D) (some S) (some pd) =
      .ok (List.dedup (List.map (fun jc => (jc.1, jc.2, firstSeen db jc.1, lastSeen db jc.1))
        (List.filter (fun jc => hiddenPass k jc.2)
          (List.filter (fun jc => some jc.2.name == some name)
            (List.filter (fun jc => decide (jc.1.id ∈ S))
              ((joinRows db).flatMap fun jc =>
                List.map (fun _ => jc)
                  (List.filter (fun i => jc.1.id == i.job_id && some i.scrape_date == some pd)
                    db.inserts))))))) := by
  have ht : truthy (some name) = true := by simp [truthy, hname]
  unfold applyFilters removedParams
  simp only [ht, truthy_none, truthyL_none, truthyN_none, Bool.false_eq_true, if_false, if_true,
    Option.isSome, pure_bind, ite_true, ite_false]
  rfl

/-- Membership in the `removed` result set, spelled out over the store. -/
lemma removed_sel_mem (db : DB) (k : Option APIKey) (name : String) (S : Finset Nat)
    (pd : Nat) (r : ResultRow) :
    r ∈ List.dedup (List.map (fun jc => (jc.1, jc.2, firstSeen db jc.1, lastSeen db jc.1))
        (List.filter (fun jc => hiddenPass k jc.2)
          (List.filter (fun jc => some jc.2.name == some name)
            (List.filter (fun jc => decide (jc.1.id ∈ S))
              ((joinRows db).flatMap fun jc =>
                List.map (fun _ => jc)
                  (List.filter (fun i => jc.1.id == i.job_id && some i.scrape_date == some pd)
                    db.inserts)))))) ↔
      ∃ j c, r = (j, c, firstSeen db j, lastSeen db j) ∧ j ∈ db.jobs ∧ c ∈ db.companies ∧
        j.company_id = c.id ∧ (∃ i ∈ db.inserts, j.id = i.job_id ∧ i.scrape_date = pd) ∧
        j.id ∈ S ∧ c.name = name ∧ hiddenPass k c = true := by
  rw [List.mem_dedup]
  simp only [List.mem_map, List.mem_filter, List.mem_flatMap, mem_joinRows, beq_iff_eq,
    Option.some_inj, Bool.and_eq_true, decide_eq_true_eq]
  constructor
  · intro h
    obtain ⟨jc, hjc, hr⟩ := h
    obtain ⟨⟨⟨hflat, hS⟩, hn⟩, hh⟩ := hjc
    obtain ⟨a, ha, i, hi, heq⟩ := hflat
    obtain ⟨hj, hc, hcc⟩ := ha
    subst heq
    exact ⟨a.1, a.2, hr.symm, hj, hc, hcc, ⟨i, hi.1, hi.2.1, hi.2.2⟩, hS, hn, hh⟩
  · rintro ⟨j, c, rfl, hj, hc, hcc, ⟨i, hi, hij, hdate⟩, hS, hn, hh⟩
    exact ⟨(j, c), ⟨⟨⟨⟨(j, c), ⟨hj, hc, hcc⟩, i, ⟨hi, hij, hdate⟩, rfl⟩, hS⟩, hn⟩, hh⟩, rfl⟩

/-- C1: a listing request with status `removed`, reference date `D` and
    company name returns exactly the jobs in
    `jobIdsOnDate(previousAdjacent(D)) \ jobIdsOnDate(D)`, with every
    returned row carrying a snapshot entry dated at the previous adjacent
    date (the date join runs on the previous date, not `D`); with no
    previous adjacent date the result is empty. -/
theorem C1_removed_status_listing (db : DB) (k : Option APIKey) (rm : String → String → Bool)
    (rc : String → Option String) (name : String) (D : Nat) (hname : name ≠ "") :
    (getAdjacentDate db k name D "previous" = none →
      get_jobs_with_filters db k rm rc (removedParams name D) = .ok ([], 0)) ∧
    (∀ pd, getAdjacentDate db k name D "previous" = some pd →
      ∃ rows, get_jobs_with_filters db k rm rc (removedParams name D) =
          .ok (rows, rows.length) ∧
        (rows.map fun r => r.1.id).toFinset =
          jobIdsOnDate db k name pd \ jobIdsOnDate db k name D ∧
        ∀ r ∈ rows, ∃ i ∈ db.inserts, i.job_id = r.1.id ∧ i.scrape_date = pd) := by
  have hunfold : get_jobs_with_filters db k rm rc (removedParams name D) =
      (if (jobStatusFilter db k (some name) (some D) (some "removed")).1 =
          some (∅ : Finset Nat) then Except.ok ([], 0)
       else
        match applyFilters db k rm rc (removedParams name D)
            (jobStatusFilter db k (some name) (some D) (some "removed")).1
            (jobStatusFilter db k (some name) (some D) (some "removed")).2 with
        | .error e => .error e
        | .ok selected => .ok (selected, selected.length)) := rfl
  constructor
  · intro hadj
    rw [hunfold, jobStatusFilter_removed_none db k name D hname hadj, if_pos rfl]
  · intro pd hadj
    have hjf := jobStatusFilter_removed_some db k name D pd hname hadj
    by_cases hS : jobIdsOnDate db k name pd \ jobIdsOnDate db k name D = (∅ : Finset Nat)
    · refine ⟨[], ?_, ?_, by simp⟩
      · rw [hunfold, hjf, hS, if_pos rfl]
        rfl
      · rw [hS]
        rfl
    · set sel := List.dedup
        (List.map (fun jc => (jc.1, jc.2, firstSeen db jc.1, lastSeen db jc.1))
          (List.filter (fun jc => hiddenPass k jc.2)
            (List.filter (fun jc => some jc.2.name == some name)
              (List.filter (fun jc =>
                  decide (jc.1.id ∈ jobIdsOnDate db k name pd \ jobIdsOnDate db k name D))
                ((joinRows db).flatMap fun jc =>
                  List.map (fun _ => jc)
                    (List.filter (fun i =>
                        jc.1.id == i.job_id && some i.scrape_date == some pd)
                      db.inserts)))))) with hseldef
      refine ⟨sel, ?_, ?_, ?_⟩
      · rw [hunfold, hjf, if_neg (by simpa using hS),
          applyFilters_removed_eq db k rm rc name D _ pd hname]
      · ext x
        simp only [List.mem_toFinset, List.mem_map]
        constructor
        · rintro ⟨r, hr, rfl⟩
          obtain ⟨j, c, rfl, -, -, -, -, hjS, -, -⟩ :=
            (removed_sel_mem db k name _ pd r).mp hr
          exact hjS
        · intro hx
          obtain ⟨j, hj, hjid, ⟨c, hc, hcid, hcn, hcp⟩, ⟨i, hi, hij, hdate⟩⟩ :=
            mem_jobIdsOnDate.mp (Finset.mem_sdiff.mp hx).1
          refine ⟨(j, c, firstSeen db j, lastSeen db j), ?_, hjid⟩
          exact (removed_sel_mem db k name _ pd _).mpr
            ⟨j, c, rfl, hj, hc, hcid, ⟨i, hi, hij, hdate⟩, by rw [hjid]; exact hx, hcn, hcp⟩
      · intro r hr
        obtain ⟨j, c, rfl, -, -, -, ⟨i, hi, hij, hdate⟩, -, -, -⟩ :=
          (removed_sel_mem db k name _ pd r).mp hr
        exact ⟨i, hi, hij.symm, hdate⟩

/-- Witness for C1: on the Acme store at reference date 8, the `removed`
    listing returns exactly job 1 (present on the previous adjacent date 1,
    absent on 8), sourced from date-1 snapshot rows. -/
theorem C1_witness :
    ∃ rows, get_jobs_with_filters acmeDb none (fun _ _ => false) (fun _ => none)
        (removedParams "Acme" 8) = .ok (rows, rows.length) ∧
      (rows.map fun r => r.1.id).toFinset =
        jobIdsOnDate acmeDb none "Acme" 1 \ jobIdsOnDate acmeDb none "Acme" 8 ∧
      ∀ r ∈ rows, ∃ i ∈ acmeDb.inserts, i.job_id = r.1.id ∧ i.scrape_date = 1 :=
  (C1_removed_status_listing acmeDb none (fun _ _ => false) (fun _ => none) "Acme" 8
    (by decide)).2 1 (by decide)

/-! ## Empty-query search (C10) -/

/-- If the pattern eventually matches the empty suffix, the `%` scan
    succeeds on every subject. -/
lemma likeSuffix_of_nil (m : List Char → Bool) (h : m [] = true) :
    ∀ l, likeSuffix m l = true := by
  intro l
  induction l with
  | nil => simpa [likeSuffix] using h
  | cons c s ih => simp [likeSuffix, ih]

/-- The pattern `%` matches every string. -/
lemma ilike_percent (s : String) : ilike s "%" = true := by
  have hp : "%".toList.map Char.toLower = ['%'] := by decide
  rw [ilike, hp]
  exact likeSuffix_of_nil _ rfl _

/-- On a nullable column, `%` matches exactly the non-NULL values. -/
lemma optIlike_percent (o : Option String) : optIlike o "%" = o.isSome := by
  cases o
  · rfl
  · simp [optIlike, ilike_percent]

/-- C10 (amended): a search query that is absent or sanitises to the empty
    string is not rejected; the search uses the match-everything pattern
    `%` (which matches every string) and returns exactly the visible join
    rows having at least one non-NULL searchable column (title, function
    or keywords) — a row whose three searchable columns are all NULL is
    dropped by SQL's NULL semantics even under `%`. -/
theorem C10_empty_query_search (db : DB) (k : Option APIKey) (q : Option String)
    (hq : sanitize_string q = none ∨ sanitize_string q = some "") :
    (∀ s, ilike s "%" = true) ∧
    search_jobs db k q =
      ((joinRows db).filter fun jc =>
          (jc.1.title.isSome || jc.1.function.isSome || jc.1.keywords.isSome) &&
            hiddenPass k jc.2).map
        (fun jc => (jc.1, jc.2, firstSeen db jc.1, lastSeen db jc.1)) := by
  refine ⟨ilike_percent, ?_⟩
  have hpat : (match sanitize_like_pattern (sanitize_string q) with
      | some s => if s == "" then "%" else "%" ++ s ++ "%"
      | none => "%") = "%" := by
    rcases hq with h | h <;> rw [h] <;> rfl
  rw [search_jobs]
  rw [hpat]
  simp only [optIlike_percent]

/-- Counterexample to C10 as stated: with the empty query (sanitised to
    `""`, so the `%` pattern is used), a job whose title, function and
    keywords are all NULL is not returned although it is visible to the
    anonymous principal — `NULL ILIKE '%'` is not TRUE in SQL, so the
    match-everything pattern does not return every visible job. -/
theorem C10_counterexample :
    search_jobs { companies := [{ id := 1, name := "Acme", hidden := false }],
                  jobs := [{ id := 1, company_id := 1 }] } none (some "") = [] ∧
    ({ id := 1, company_id := 1 } : Job) ∈
      ({ companies := [{ id := 1, name := "Acme", hidden := false }],
         jobs := [{ id := 1, company_id := 1 }] } : DB).jobs ∧
    ({ id := 1, name := "Acme", hidden := false } : Company) ∈
      ({ companies := [{ id := 1, name := "Acme", hidden := false }],
         jobs := [{ id := 1, company_id := 1 }] } : DB).companies ∧
    ({ id := 1, company_id := 1 } : Job).company_id =
      ({ id := 1, name := "Acme", hidden := false } : Company).id ∧
    hiddenPass none { id := 1, name := "Acme", hidden := false } = true := by decide

/-- Witness for C10 (amended theorem): searching the Acme store with an
    all-whitespace query returns the titled job. -/
theorem C10_witness :
    (∀ s, ilike s "%" = true) ∧
    search_jobs { companies := [⟨1, "Acme", false⟩],
                  jobs := [{ id := 1, company_id := 1, title := some "Engineer" }] }
        none (some " ") =
      ((joinRows { companies := [⟨1, "Acme", false⟩],
                   jobs := [{ id := 1, company_id := 1, title := some "Engineer" }] }).filter
          fun jc => (jc.1.title.isSome || jc.1.function.isSome || jc.1.keywords.isSome) &&
            hiddenPass none jc.2).map
        (fun jc =>
          (jc.1, jc.2,
            firstSeen { companies := [⟨1, "Acme", false⟩],
                        jobs := [{ id := 1, company_id := 1, title := some "Engineer" }] } jc.1,
            lastSeen { companies := [⟨1, "Acme", false⟩],
                       jobs := [{ id := 1, company_id := 1, title := some "Engineer" }] } jc.1)) :=
  C10_empty_query_search _ none (some " ") (by decide)

/-! ## Snapshot-entry idempotence (C9) -/

/-- `create_or_update_job` never touches the `inserts` relation. -/
lemma create_or_update_job_inserts (db : DB) (r : JobInsertRequest) :
    (create_or_update_job db r).1.inserts = db.inserts := by
  unfold create_or_update_job get_or_create_company
  rcases hf : db.companies.find? (fun c => c.name == r.company_name && c.hidden == r.hidden)
    with _ | c <;>
    simp only [hf] <;>
    rcases find_existing_job _ _ r.job_id r.url with _ | j <;> rfl

/-- `create_insert` never touches the `companies` and `jobs` relations. -/
lemma create_insert_other_relations (db : DB) (jid sd : Nat) :
    (create_insert db jid sd).1.companies = db.companies ∧
    (create_insert db jid sd).1.jobs = db.jobs := by
  unfold create_insert
  rcases hf : db.inserts.find? (fun i => i.job_id == jid && i.scrape_date == sd) with _ | e <;>
    simp [hf]

/-- Re-running `get_or_create_company` on any store holding the first
    run's company list finds the company the first run resolved. -/
lemma get_or_create_company_second (db : DB) (n : String) (hdn : Bool) (db' : DB)
    (hcomp : db'.companies = (get_or_create_company db n hdn).1.companies) :
    get_or_create_company db' n hdn = (db', (get_or_create_company db n hdn).2) := by
  unfold get_or_create_company at hcomp ⊢
  rcases hf : db.companies.find? (fun c => c.name == n && c.hidden == hdn) with _ | c <;>
    simp only [hf] at hcomp ⊢
  · rw [hcomp, List.find?_append, hf]
    simp
  · rw [hcomp, hf]

/-- `find_existing_job` reads only the `jobs` relation. -/
lemma find_existing_job_jobs_eq (db db' : DB) (cid : Nat) (jid url : Option String)
    (h : db'.jobs = db.jobs) :
    find_existing_job db' cid jid url = find_existing_job db cid jid url := by
  unfold find_existing_job
  rw [h]

/-- If the dedup key (external id or url) is present and the first lookup
    found nothing, the lookup over the job list extended with the job
    built from that key finds exactly that job. -/
lemma find_existing_job_append_self (db : DB) (cid : Nat) (jid url : Option String)
    (job : Job) (hkey : truthy jid = true ∨ truthy url = true)
    (hnone : find_existing_job db cid jid url = none)
    (hcid : job.company_id = cid) (hj : job.job_id = jid) (hu : job.url = url)
    (db' : DB) (hjobs : db'.jobs = db.jobs ++ [job]) :
    find_existing_job db' cid jid url = some job := by
  unfold find_existing_job at hnone ⊢
  rw [hjobs, List.filter_append]
  by_cases hjidT : truthy jid = true
  · rw [if_pos hjidT] at hnone ⊢
    rw [List.filter_append]
    rw [List.head?_eq_none_iff] at hnone
    rw [hnone]
    simp [hcid, hj]
  · rw [if_neg hjidT] at hnone ⊢
    have hurlT : truthy url = true := hkey.resolve_left hjidT
    rw [if_pos hurlT] at hnone ⊢
    rw [List.filter_append]
    rw [List.head?_eq_none_iff] at hnone
    rw [hnone]
    simp [hcid, hu]

/-- Re-running `create_or_update_job` on any store holding the first run's
    company and job lists finds (does not re-create) the job the first run
    resolved, provided a dedup key was supplied. -/
lemma create_or_update_job_second (db : DB) (r : JobInsertRequest)
    (hkey : truthy r.job_id = true ∨ truthy r.url = true) (db' : DB)
    (hcomp : db'.companies = (create_or_update_job db r).1.companies)
    (hjobs : db'.jobs = (create_or_update_job db r).1.jobs) :
    create_or_update_job db' r = (db', (create_or_update_job db r).2.1, false) := by
  unfold create_or_update_job at hcomp hjobs ⊢
  rcases hfe : find_existing_job (get_or_create_company db r.company_name r.hidden).1
      (get_or_create_company db r.company_name r.hidden).2.id r.job_id r.url with _ | j <;>
    simp only [hfe] at hcomp hjobs ⊢
  · -- first run created the job
    have hg := get_or_create_company_second db r.company_name r.hidden db' hcomp
    rw [hg]
    have hfe' : find_existing_job db'
        (get_or_create_company db r.company_name r.hidden).2.id r.job_id r.url =
        some { id := (get_or_create_company db r.company_name r.hidden).1.nextJobId,
               company_id := (get_or_create_company db r.company_name r.hidden).2.id,
               job_id := r.job_id, url := r.url, title := r.title, function := r.function,
               level := r.level, contract_type := r.contract_type,
               work_location := r.work_location,
               work_location_short := r.work_location_short,
               all_locations := r.all_locations, department := r.department,
               keywords := r.keywords } := by
      refine find_existing_job_append_self
        (get_or_create_company db r.company_name r.hidden).1
        (get_or_create_company db r.company_name r.hidden).2.id r.job_id r.url _
        hkey hfe rfl rfl rfl db' hjobs
    rw [hfe']
  · -- first run found the job
    have hg := get_or_create_company_second db r.company_name r.hidden db' hcomp
    rw [hg]
    rw [find_existing_job_jobs_eq (get_or_create_company db r.company_name r.hidden).1 db'
      (get_or_create_company db r.company_name r.hidden).2.id r.job_id r.url hjobs, hfe]

/-- `insert_job` with its let-bindings expanded (definitional). -/
lemma insert_job_eq (db : DB) (r : JobInsertRequest) (today : Nat) :
    insert_job db r today =
      (match (create_insert (create_or_update_job db r).1
          (create_or_update_job db r).2.1.id (r.scrape_date.getD today)).2 with
       | some ins =>
         ((create_insert (create_or_update_job db r).1
             (create_or_update_job db r).2.1.id (r.scrape_date.getD today)).1,
          { job_id := (create_or_update_job db r).2.1.id, insert_id := (ins.id : Int),
            is_new_job := (create_or_update_job db r).2.2,
            message := if (create_or_update_job db r).2.2 then
                "New job created with insert record"
              else "Existing job found, new insert record created" })
       | none =>
         match (create_insert (create_or_update_job db r).1
             (create_or_update_job db r).2.1.id (r.scrape_date.getD today)).1.inserts.find?
             (fun i => i.job_id == (create_or_update_job db r).2.1.id &&
               i.scrape_date == r.scrape_date.getD today) with
         | some existing =>
           ((create_insert (create_or_update_job db r).1
               (create_or_update_job db r).2.1.id (r.scrape_date.getD today)).1,
            { job_id := (create_or_update_job db r).2.1.id, insert_id := (existing.id : Int),
              is_new_job := (create_or_update_job db r).2.2,
              message := if !(create_or_update_job db r).2.2 then
                  "Job and insert record already exist for this date"
                else "New job created but insert record already exists for this date" })
         | none =>
           ((create_insert (create_or_update_job db r).1
               (create_or_update_job db r).2.1.id (r.scrape_date.getD today)).1,
            { job_id := (create_or_update_job db r).2.1.id, insert_id := -1,
              is_new_job := (create_or_update_job db r).2.2,
              message := if !(create_or_update_job db r).2.2 then
                  "Job and insert record already exist for this date"
                else "New job created but insert record already exists for this date" })) := by
  unfold insert_job
  rfl

/-- C9: inserting the same snapshot `(job, date)` twice — the request
    carrying a dedup key, the store satisfying the at-most-one-entry
    invariant for that pair — leaves the store of the first call entirely
    unchanged, with exactly one matching snapshot entry; the second
    response resolves the same job, is not flagged new, reports that the
    entry already exists, and returns the existing entry's id. -/
theorem C9_snapshot_insert_idempotent (db : DB) (r : JobInsertRequest) (today : Nat)
    (hkey : truthy r.job_id = true ∨ truthy r.url = true)
    (huniq : (db.inserts.countP fun i =>
        i.job_id == (insert_job db r today).2.job_id &&
        i.scrape_date == r.scrape_date.getD today) ≤ 1) :
    (insert_job (insert_job db r today).1 r today).1 = (insert_job db r today).1 ∧
    ((insert_job db r today).1.inserts.countP fun i =>
        i.job_id == (insert_job db r today).2.job_id &&
        i.scrape_date == r.scrape_date.getD today) = 1 ∧
    (insert_job (insert_job db r today).1 r today).2.message =
      "Job and insert record already exist for this date" ∧
    (insert_job (insert_job db r today).1 r today).2.is_new_job = false ∧
    (insert_job (insert_job db r today).1 r today).2.job_id =
      (insert_job db r today).2.job_id ∧
    ∃ e ∈ (insert_job db r today).1.inserts,
      e.job_id = (insert_job db r today).2.job_id ∧
      e.scrape_date = r.scrape_date.getD today ∧
      (insert_job (insert_job db r today).1 r today).2.insert_id = (e.id : Int) := by
  rcases hcu : create_or_update_job db r with ⟨dbA, job1, isNew1⟩
  have hdbAins : dbA.inserts = db.inserts := by
    have h := create_or_update_job_inserts db r
    rw [hcu] at h
    exact h
  rcases hfi : dbA.inserts.find?
      (fun i => i.job_id == job1.id && i.scrape_date == r.scrape_date.getD today) with _ | e0
  case none =>
    -- first call creates the snapshot entry
    have hci : create_insert dbA job1.id (r.scrape_date.getD today) =
        ({ dbA with
            inserts := dbA.inserts ++ [⟨dbA.nextInsertId, job1.id, r.scrape_date.getD today⟩],
            nextInsertId := dbA.nextInsertId + 1 },
          some ⟨dbA.nextInsertId, job1.id, r.scrape_date.getD today⟩) := by
      unfold create_insert
      rw [hfi]
    have hfirst : insert_job db r today =
        ({ dbA with
            inserts := dbA.inserts ++ [⟨dbA.nextInsertId, job1.id, r.scrape_date.getD today⟩],
            nextInsertId := dbA.nextInsertId + 1 },
         { job_id := job1.id, insert_id := (dbA.nextInsertId : Int), is_new_job := isNew1,
           message := if isNew1 then "New job created with insert record"
                      else "Existing job found, new insert record created" }) := by
      rw [insert_job_eq, hcu]
      dsimp only
      rw [hci]
    rw [hfirst]
    dsimp only
    have hsecondcu : create_or_update_job
        ({ dbA with
            inserts := dbA.inserts ++ [⟨dbA.nextInsertId, job1.id, r.scrape_date.getD today⟩],
            nextInsertId := dbA.nextInsertId + 1 } : DB) r =
        (({ dbA with
            inserts := dbA.inserts ++ [⟨dbA.nextInsertId, job1.id, r.scrape_date.getD today⟩],
            nextInsertId := dbA.nextInsertId + 1 } : DB), job1, false) := by
      have := create_or_update_job_second db r hkey
        ({ dbA with
            inserts := dbA.inserts ++ [⟨dbA.nextInsertId, job1.id, r.scrape_date.getD today⟩],
            nextInsertId := dbA.nextInsertId + 1 } : DB) (by rw [hcu]) (by rw [hcu])
      rw [hcu] at this
      exact this
    have hfind2 : (({ dbA with
          inserts := dbA.inserts ++ [⟨dbA.nextInsertId, job1.id, r.scrape_date.getD today⟩],
          nextInsertId := dbA.nextInsertId + 1 } : DB)).inserts.find?
        (fun i => i.job_id == job1.id && i.scrape_date == r.scrape_date.getD today) =
        some ⟨dbA.nextInsertId, job1.id, r.scrape_date.getD today⟩ := by
      show (dbA.inserts ++ [(⟨dbA.nextInsertId, job1.id, r.scrape_date.getD today⟩ : InsertRow)]).find?
          (fun i => i.job_id == job1.id && i.scrape_date == r.scrape_date.getD today) =
        some ⟨dbA.nextInsertId, job1.id, r.scrape_date.getD today⟩
      rw [List.find?_append, hfi]
      simp
    have hci2 : create_insert
        ({ dbA with
            inserts := dbA.inserts ++ [⟨dbA.nextInsertId, job1.id, r.scrape_date.getD today⟩],
            nextInsertId := dbA.nextInsertId + 1 } : DB) job1.id (r.scrape_date.getD today) =
        (({ dbA with
            inserts := dbA.inserts ++ [⟨dbA.nextInsertId, job1.id, r.scrape_date.getD today⟩],
            nextInsertId := dbA.nextInsertId + 1 } : DB), none) := by
      unfold create_insert
      rw [hfind2]
    have hsecond : insert_job
        ({ dbA with
            inserts := dbA.inserts ++ [⟨dbA.nextInsertId, job1.id, r.scrape_date.getD today⟩],
            nextInsertId := dbA.nextInsertId + 1 } : DB) r today =
        (({ dbA with
            inserts := dbA.inserts ++ [⟨dbA.nextInsertId, job1.id, r.scrape_date.getD today⟩],
            nextInsertId := dbA.nextInsertId + 1 } : DB),
         { job_id := job1.id,
           insert_id := ((⟨dbA.nextInsertId, job1.id, r.scrape_date.getD today⟩ : InsertRow).id : Int),
           is_new_job := false,
           message := "Job and insert record already exist for this date" }) := by
      rw [insert_job_eq, hsecondcu]
      dsimp only
      rw [hci2]
      dsimp only
      rw [hfind2]
      rfl
    rw [hsecond]
    refine ⟨rfl, ?_, rfl, rfl, rfl, ?_⟩
    · show ((dbA.inserts ++ [(⟨dbA.nextInsertId, job1.id, r.scrape_date.getD today⟩ : InsertRow)]).countP
          (fun i => i.job_id == job1.id && i.scrape_date == r.scrape_date.getD today)) = 1
      rw [List.countP_append]
      have hzero : (dbA.inserts.countP
          (fun i => i.job_id == job1.id && i.scrape_date == r.scrape_date.getD today)) = 0 := by
        rw [List.countP_eq_zero]
        exact List.find?_eq_none.mp hfi
      rw [hzero]
      simp
    · refine ⟨⟨dbA.nextInsertId, job1.id, r.scrape_date.getD today⟩, ?_, rfl, rfl, rfl⟩
      show _ ∈ dbA.inserts ++ [(⟨dbA.nextInsertId, job1.id, r.scrape_date.getD today⟩ : InsertRow)]
      exact List.mem_append_right _ (List.mem_singleton.mpr rfl)
  case some =>
    -- the snapshot entry already existed before the first call
    have hci : create_insert dbA job1.id (r.scrape_date.getD today) = (dbA, none) := by
      unfold create_insert
      rw [hfi]
    have hfirst : insert_job db r today =
        (dbA,
         { job_id := job1.id, insert_id := (e0.id : Int), is_new_job := isNew1,
           message := if !isNew1 then "Job and insert record already exist for this date"
                      else "New job created but insert record already exists for this date" }) := by
      rw [insert_job_eq, hcu]
      dsimp only
      rw [hci]
      dsimp only
      rw [hfi]
    rw [hfirst]
    dsimp only
    have hsecondcu : create_or_update_job dbA r = (dbA, job1, false) := by
      have := create_or_update_job_second db r hkey dbA (by rw [hcu]) (by rw [hcu])
      rw [hcu] at this
      exact this
    have hsecond : insert_job dbA r today =
        (dbA,
         { job_id := job1.id, insert_id := (e0.id : Int), is_new_job := false,
           message := "Job and insert record already exist for this date" }) := by
      rw [insert_job_eq, hsecondcu]
      dsimp only
      rw [hci]
      dsimp only
      rw [hfi]
      rfl
    rw [hsecond]
    have hmem : e0 ∈ dbA.inserts := List.mem_of_find?_eq_some hfi
    have hpe := List.find?_some hfi
    rw [Bool.and_eq_true, beq_iff_eq, beq_iff_eq] at hpe
    refine ⟨rfl, ?_, rfl, rfl, rfl, ?_⟩
    · rw [hfirst] at huniq
      dsimp only at huniq
      have hpos : 0 < dbA.inserts.countP
          (fun i => i.job_id == job1.id && i.scrape_date == r.scrape_date.getD today) := by
        rw [List.countP_pos_iff]
        refine ⟨e0, hmem, ?_⟩
        simp [hpe.1, hpe.2]
      rw [hdbAins]
      rw [hdbAins] at hpos
      exact Nat.le_antisymm huniq hpos
    · exact ⟨e0, hmem, hpe.1, hpe.2, rfl⟩

/-- Witness for C9: inserting the same (job, date) snapshot twice into an
    empty store leaves one entry and the second response reports it. -/
theorem C9_witness :
    (insert_job (insert_job c9db c9req 9).1 c9req 9).1 = (insert_job c9db c9req 9).1 ∧
    ((insert_job c9db c9req 9).1.inserts.countP fun i =>
        i.job_id == (insert_job c9db c9req 9).2.job_id &&
        i.scrape_date == c9req.scrape_date.getD 9) = 1 ∧
    (insert_job (insert_job c9db c9req 9).1 c9req 9).2.message =
      "Job and insert record already exist for this date" ∧
    (insert_job (insert_job c9db c9req 9).1 c9req 9).2.is_new_job = false ∧
    (insert_job (insert_job c9db c9req 9).1 c9req 9).2.job_id =
      (insert_job c9db c9req 9).2.job_id ∧
    ∃ e ∈ (insert_job c9db c9req 9).1.inserts,
      e.job_id = (insert_job c9db c9req 9).2.job_id ∧
      e.scrape_date = c9req.scrape_date.getD 9 ∧
      (insert_job (insert_job c9db c9req 9).1 c9req 9).2.insert_id = (e.id : Int) :=
  C9_snapshot_insert_idempotent c9db c9req 9 (Or.inl (by decide)) (by decide)

end JobPortal
